import Mathlib

/-!
Shallow embedding of the promise library (promises.go).

Go reflect types are modelled by `Ty`, reflect values by `Val`, errors from
the github.com/pkg/errors package by `GoErr` (a wrap chain), and the mutable
per-promise cell (complete flag, stored error, stored results) by
`PromiseState`.  Worker goroutines of `All`/`Any` are modelled by an explicit
schedule: a list of collector indices in the order in which the collectors
pass their predecessor-await and run; each collector reads only the final
state of its own predecessor, which is sound because the source collector
blocks on `prior.cond` until that predecessor is complete.
-/

/-- Go reflect.Type: a defined/builtin type is identified by its package path
and name; slice and pointer types are structural. -/
inductive Ty
  | named (pkgPath : String) (name : String)
  | slice (elem : Ty)
  | ptr (elem : Ty)
deriving DecidableEq, Inhabited

/-- The builtin error interface type: Name() == "error", PkgPath() == "". -/
def Ty.goError : Ty := .named "" "error"

/-- The builtin int type. -/
def Ty.int : Ty := .named "" "int"

/-- The builtin string type. -/
def Ty.string : Ty := .named "" "string"

/-- reflect.Type.Elem(): element type of a slice or pointer type.  The source
only calls it on the (slice-typed) trailing parameter of a variadic
function. -/
def Ty.elem : Ty → Ty
  | .slice t => t
  | .ptr t => t
  | t => t

/-- An error value as produced by github.com/pkg/errors: either a leaf error
(errors.New / errors.Errorf) or a wrap of a cause with a message
(errors.Wrap). -/
inductive GoErr
  | base (msg : String)
  | wrap (msg : String) (cause : GoErr)
deriving DecidableEq

/-- A Go runtime value, as far as the library manipulates them. -/
inductive Val
  | intV (n : Int)
  | strV (s : String)
  | goerr (e : Option GoErr)
  | sliceV (elem : Ty) (elems : List Val)

/-- reflect.Value.Type() of a value. -/
def Val.tyOf : Val → Ty
  | .intV _ => Ty.int
  | .strV _ => Ty.string
  | .goerr _ => Ty.goError
  | .sliceV t _ => Ty.slice t

/-- The payload of a recovered panic: either a value implementing the error
interface, or some other payload (carried as its "%+v" rendering). -/
inductive PanicVal
  | errVal (e : GoErr)
  | other (s : String)

/-- Outcome of invoking a function body: a normal return or a panic that
escapes it. -/
inductive CallOutcome
  | ret (vals : List Val)
  | panic (r : PanicVal)

/-- A user function as seen through reflection: its input types (for a
variadic function the last one is the slice type of the trailing parameter),
the variadic flag, its declared output types, and its behaviour. -/
structure GoFunc where
  ins : List Ty
  variadic : Bool
  outs : List Ty
  body : List Val → CallOutcome

/-- reflect.Value.Call: checks arity (and argument types) against the
function type and then runs the body; a mismatch is a reflect panic.  (For a
variadic function reflect accepts any arity at least the fixed prefix; the
theorems below never call a variadic function at run time.) -/
def callFunc (f : GoFunc) (args : List Val) : CallOutcome :=
  if f.variadic then f.body args
  else if args.length ≠ f.ins.length then
    .panic (.other "reflect: Call with too few input arguments")
  else if ∀ pr ∈ args.zip f.ins, pr.1.tyOf = pr.2 then f.body args
  else .panic (.other "reflect: Call using wrong argument type")

/-- The mutable part of a Promise: the complete flag, the stored error and
the stored results (promises.go struct Promise, fields complete / err /
results). -/
structure PromiseState where
  complete : Bool
  err : Option GoErr
  results : List Val

/-- The state of a freshly constructed promise. -/
def initState : PromiseState := ⟨false, none, []⟩

/-- A completed predecessor promise, as read by a collector after awaiting
its condition variable: its static result profile and returnsError flag plus
its final error and results. -/
structure Completed where
  resultType : List Ty
  returnsError : Bool
  err : Option GoErr
  results : List Val

/-- Normalization done by run's deferred recovery: a payload implementing
error is kept, any other payload is stringified by errors.Errorf with
"%+v". -/
def normalizePanic : PanicVal → GoErr
  | .errVal e => e
  | .other s => .base s

/-- The deferred recovery block of run: under the promise's lock, if the
promise is already complete do nothing, otherwise store the normalized panic
as the error and mark the promise complete (results are left as they
were). -/
def recoverCommit (st : PromiseState) (r : PanicVal) : PromiseState :=
  if st.complete then st
  else { complete := true, err := some (normalizePanic r), results := st.results }

/-- The tail of run, under the promise's lock: if returnsError is set, pop
the trailing return value; when it is a non-nil error store it as the
promise's error; then set complete and store the remaining values as the
results.  The two impossible branches (no trailing value / a trailing value
that is not error-typed) panic in the source and are caught by the deferred
recovery after the lock is released. -/
def runCommit (returnsError : Bool) (st : PromiseState) (vals : List Val) : PromiseState :=
  if returnsError then
    match vals.getLast? with
    | some (.goerr e) =>
        { complete := true
          err := match e with | some x => some x | none => st.err
          results := vals.dropLast }
    | some _ => recoverCommit st (.other "Expected to find error")
    | none => recoverCommit st (.other "runtime error: index out of range")
  else { complete := true, err := st.err, results := vals }

/-- getResultType: the result profile of a function's declared outputs.  The
trailing output is stripped and flagged as an error channel exactly when it
is the builtin error interface type. -/
def getResultType (outs : List Ty) : List Ty × Bool :=
  match outs.getLast? with
  | none => ([], false)
  | some last => if last = Ty.goError then (outs.dropLast, true) else (outs, false)

/-- The worker of a New promise (run with t = simpleCall): call the function
and commit, with the panic boundary. -/
def runSimple (f : GoFunc) (args : List Val) : PromiseState :=
  match callFunc f args with
  | .panic r => recoverCommit initState r
  | .ret vals => runCommit (getResultType f.outs).2 initState vals

/-- thenCall, translated literally: after awaiting the predecessor it tests
the CHILD promise's own err field (the source reads p.err, not prior.err),
then calls g with the predecessor's stored results, and only afterwards, and
only when the predecessor declares an error channel, re-raises the
predecessor's error. -/
def thenCallOutcome (st : PromiseState) (prior : Completed) (g : GoFunc) : CallOutcome :=
  match st.err with
  | some e => .panic (.errVal (GoErr.wrap "error in previous promise" e))
  | none =>
    match callFunc g prior.results with
    | .panic r => .panic r
    | .ret results =>
      if prior.returnsError ∧ prior.err.isSome then
        .panic (.errVal (prior.err.getD (GoErr.base "")))
      else .ret results

/-- The worker of a Then promise (run with t = thenCall): the child starts
from the fresh state, runs thenCall, and commits through the panic
boundary. -/
def runThen (prior : Completed) (g : GoFunc) : PromiseState :=
  match thenCallOutcome initState prior g with
  | .panic r => recoverCommit initState r
  | .ret vals => runCommit (getResultType g.outs).2 initState vals

/-- The construction-time validation of Then: compute the callee's input
types, adjust a variadic trailing parameter (argDiff = -1 drops it, argDiff
> 0 replaces it by argDiff + 1 copies of its element type, any other argDiff
leaves the inputs unchanged), then require the inputs to equal the
predecessor's result profile element-wise.  Returns the new promise's result
profile and returnsError flag, or the structural panic message. -/
def thenConstruct (pResultType : List Ty) (f : GoFunc) : Except String (List Ty × Bool) :=
  let inputs := f.ins
  let rt := getResultType f.outs
  let inputs :=
    if f.variadic then
      let argDiff : Int := (pResultType.length : Int) - (inputs.length : Int)
      if argDiff = -1 then inputs.dropLast
      else if argDiff > 0 then
        match inputs.getLast? with
        | some variadic => inputs.dropLast ++ List.replicate (argDiff.toNat + 1) variadic.elem
        | none => inputs
      else inputs
    else inputs
  if inputs.length ≠ pResultType.length then
    .error "promise returns %d values, but provided function accepts %d args"
  else if ∀ pr ∈ inputs.zip pResultType, pr.1 = pr.2 then .ok rt
  else .error "for argument %d: expected type %s got type %s"

/-- Boolean view of an Except being a success. -/
def exceptOk {ε α : Type} : Except ε α → Bool
  | .ok _ => true
  | .error _ => false

/-- The construction-time part of Any: zero predecessors become New(empty)
(empty profile), a single predecessor is returned unchanged, and with two or
more predecessors the result profiles are checked for homogeneity and then -
mirroring the source loop, which is shared with All - the profiles of ALL
predecessors are concatenated into the new promise's profile. -/
def anyConstruct (priors : List Completed) : Except String (List Ty) :=
  match priors with
  | [] => .ok []
  | [p] => .ok p.resultType
  | first :: rest =>
    if ∀ q ∈ rest, q.resultType = first.resultType then
      .ok ((first :: rest).foldl (fun acc p => acc ++ p.resultType) [])
    else .error "promise %d has an unexpected return type, expected all promises passed to Any to return the same type"

/-- The result profile computed by All: the concatenation, in predecessor
order, of the predecessors' profiles (the construction loop of All). -/
def allResultType (priors : List Completed) : List Ty :=
  priors.foldl (fun acc p => acc ++ p.resultType) []

/-- The concatenation assembled by the last All collector: the loop appending
every predecessor's results in predecessor-index order. -/
def allAssemble (priors : List Completed) : List Val :=
  priors.foldl (fun acc p => acc ++ p.results) []

/-- One collector of an All promise, acting on the pair (promise state,
pending counter): await its predecessor (modelled by reading its final
state); on predecessor failure panic with the wrapped error, caught by the
recovery; on success decrement the counter, and when the decrement reaches
zero assemble the concatenated results and commit; otherwise (allCall
returned nil) run returns without committing. -/
def allStep (priors : List Completed) (acc : PromiseState × Int) (i : Nat) :
    PromiseState × Int :=
  match priors[i]? with
  | none => acc
  | some prior =>
    match prior.err with
    | some e =>
        (recoverCommit acc.1 (.errVal (GoErr.wrap "error encountered in promise" e)), acc.2)
    | none =>
      let remaining := acc.2 - 1
      if remaining = 0 then (runCommit false acc.1 (allAssemble priors), remaining)
      else (acc.1, remaining)

/-- One collector of an Any promise.  Unlike allCall, run does NOT test
anyCall's result for nil: a collector whose decrement does not reach zero
returns a nil result slice, and run commits it anyway, overwriting the
promise's results with the empty list. -/
def anyStep (priors : List Completed) (acc : PromiseState × Int) (i : Nat) :
    PromiseState × Int :=
  match priors[i]? with
  | none => acc
  | some prior =>
    match prior.err with
    | some e =>
        (recoverCommit acc.1 (.errVal (GoErr.wrap "error encountered in promise" e)), acc.2)
    | none =>
      let remaining := acc.2 - 1
      let rs := if remaining = 0 then prior.results else []
      (runCommit false acc.1 rs, remaining)

/-- Run the collectors of an All promise in the given completion order,
starting from the fresh state and a pending counter equal to the number of
predecessors; the pair also carries the counter. -/
def runAllAux (priors : List Completed) (order : List Nat) : PromiseState × Int :=
  order.foldl (allStep priors) (initState, (priors.length : Int))

/-- The final state of an All promise after all scheduled collectors ran. -/
def runAll (priors : List Completed) (order : List Nat) : PromiseState :=
  (runAllAux priors order).1

/-- Run the collectors of an Any promise in the given completion order; the
pending counter of Any starts at 1. -/
def runAnyAux (priors : List Completed) (order : List Nat) : PromiseState × Int :=
  order.foldl (anyStep priors) (initState, (1 : Int))

/-- The final state of an Any promise after the scheduled collectors ran. -/
def runAny (priors : List Completed) (order : List Nat) : PromiseState :=
  (runAnyAux priors order).1

/-- Does collector i observe a successful predecessor? -/
def succAt (priors : List Completed) (i : Nat) : Bool :=
  match priors[i]? with
  | some p => p.err.isNone
  | none => false

/-- Does collector i observe a failed predecessor? -/
def failAt (priors : List Completed) (i : Nat) : Bool :=
  match priors[i]? with
  | some p => p.err.isSome
  | none => false

/-- Number of scheduled collectors observing a successful predecessor. -/
def countSucc (priors : List Completed) (l : List Nat) : Nat :=
  l.countP (succAt priors)

/-- validSliceReturn: the collect-into-sequence test of Wait.  It requires a
non-empty result profile, exactly one output slot, all profile entries
identical, and that single output a pointer to a slice whose element type is
the profile's entry; it yields that element type. -/
def validSliceReturn (resultType : List Ty) (args : List Ty) : Option Ty :=
  match resultType, args with
  | [], _ => none
  | _ :: _, [] => none
  | _ :: _, _ :: _ :: _ => none
  | resultElem :: rest, [arg] =>
    if ∀ r ∈ rest, r = resultElem then
      match arg with
      | Ty.ptr (Ty.slice e) => if e = resultElem then some e else none
      | _ => none
    else none

/-- The validation phase of Wait, in source order: first the
collect-into-sequence test; when it does not apply, the arity check and then
the per-position pointer-type check, each a structural panic on failure. -/
def waitValidate (resultType : List Ty) (outs : List Ty) : Option String :=
  if (validSliceReturn resultType outs).isSome then none
  else if resultType.length ≠ outs.length then
    some "Promise returns %d values, Wait was asked to set %d values"
  else if ∀ pr ∈ outs.zip resultType, pr.1 = Ty.ptr pr.2 then none
  else some "for return value %d: expected pointer to %s got type %s"

/-- The Go zero value of a type, used to fill the fresh slice of the
collect-into-sequence mode. -/
def zeroVal : Ty → Val
  | Ty.slice e => Val.sliceV e []
  | Ty.named p n =>
    if Ty.named p n = Ty.goError then Val.goerr none
    else if Ty.named p n = Ty.string then Val.strV ""
    else Val.intV 0
  | Ty.ptr _ => Val.intV 0

/-- The values written by Wait on success: in collect-into-sequence mode a
single freshly made slice sized by the profile, filled with the results; in
destructured mode the results themselves, one per output slot. -/
def waitWrites (resultType : List Ty) (outs : List Ty) (results : List Val) : List Val :=
  match validSliceReturn resultType outs with
  | some e =>
      [Val.sliceV e (results.take resultType.length ++
        List.replicate (resultType.length - results.length) (zeroVal e))]
  | none => results

/-- What a Wait call does, observed from outside. -/
inductive WaitOutcome
  | panicked (msg : String)
  | blocked
  | errored (e : GoErr)
  | ok (written : List Val)

/-- Wait, in source order: validate the output slots (a structural panic on
mismatch), then block until complete, then return the stored error wrapped
with "panic() during promise execution" when it is set, and otherwise write
the results into the slots. -/
def goWait (resultType : List Ty) (st : PromiseState) (outs : List Ty) : WaitOutcome :=
  match waitValidate resultType outs with
  | some m => .panicked m
  | none =>
    if st.complete = false then .blocked
    else
      match st.err with
      | some e => .errored (GoErr.wrap "panic() during promise execution" e)
      | none => .ok (waitWrites resultType outs st.results)

/-- Boolean form of the collect-into-sequence pattern of the spec: a
non-empty result profile all of whose entries are identical, and exactly one
output slot that is a pointer to a slice of that entry type. -/
def collectPattern (rt outs : List Ty) : Bool :=
  !rt.isEmpty && decide (outs = [Ty.ptr (Ty.slice rt.headI)]) &&
    rt.all (fun t => decide (t = rt.headI))

/-- A predecessor promise whose worker panicked: empty result profile, no
error channel, results never stored (the Go nil slice), and the recovered
panic stored as its error. -/
def priorPanicked : Completed :=
  { resultType := [], returnsError := false, err := some (.base "boom"), results := [] }

/-- The function g = func() int persisting 5, taking no arguments. -/
def constFive : GoFunc :=
  { ins := [], variadic := false, outs := [Ty.int], body := fun _ => .ret [.intV 5] }

/-- A successful int-returning predecessor with result 1. -/
def anyP1 : Completed :=
  { resultType := [Ty.int], returnsError := false, err := none, results := [.intV 1] }

/-- A successful int-returning predecessor with result 2. -/
def anyP2 : Completed :=
  { resultType := [Ty.int], returnsError := false, err := none, results := [.intV 2] }

/-- The function func(vals ...int) int, as reflection reports it: one input
of type slice-of-int, variadic. -/
def variadicIntFn : GoFunc :=
  { ins := [Ty.slice Ty.int], variadic := true, outs := [Ty.int], body := fun _ => .ret [.intV 0] }

/-- A successful int-returning predecessor with result 7. -/
def cSeven : Completed :=
  { resultType := [Ty.int], returnsError := false, err := none, results := [.intV 7] }

/-- A successful int-returning predecessor with result 8. -/
def cEight : Completed :=
  { resultType := [Ty.int], returnsError := false, err := none, results := [.intV 8] }

/-- A failed predecessor (worker panicked with the string "Failed!"). -/
def cFail : Completed :=
  { resultType := [], returnsError := false, err := some (.base "Failed!"), results := [] }

/-- The function func() that raises the string panic "Failed!". -/
def panicker : GoFunc :=
  { ins := [], variadic := false, outs := [], body := fun _ => .panic (.other "Failed!") }

/-- A collector whose predecessor failed did not observe a success. -/
lemma failAt_succAt {priors : List Completed} {i : Nat} (h : failAt priors i = true) :
    succAt priors i = false := by
  unfold failAt at h
  unfold succAt
  cases hget : priors[i]? with
  | none => rfl
  | some p =>
    rw [hget] at h
    replace h : p.err.isSome = true := h
    show p.err.isNone = false
    cases he : p.err with
    | none => rw [he] at h; simp at h
    | some e => simp [he]

/-- Unfolding countSucc over a cons. -/
lemma countSucc_cons (priors : List Completed) (i : Nat) (l : List Nat) :
    countSucc priors (i :: l) = countSucc priors l + (if succAt priors i then 1 else 0) := by
  simp [countSucc, List.countP_cons]

/-- The append-accumulating fold of the source loops equals a flat
concatenation. -/
lemma foldl_append_flatten {α : Type} (f : Completed → List α) :
    ∀ (ps : List Completed) (acc : List α),
      ps.foldl (fun a p => a ++ f p) acc = acc ++ (ps.map f).flatten := by
  intro ps
  induction ps with
  | nil => intro acc; simp
  | cons p ps ih => intro acc; simp [ih, List.append_assoc]

/-- The pending counter after a batch of All collectors is the initial value
minus the number of collectors that observed a success. -/
lemma allAux_counter (priors : List Completed) :
    ∀ (l : List Nat) (st : PromiseState) (c : Int),
      (l.foldl (allStep priors) (st, c)).2 = c - countSucc priors l := by
  intro l
  induction l with
  | nil => intro st c; simp [countSucc]
  | cons i l ih =>
    intro st c
    rw [List.foldl_cons, countSucc_cons]
    cases hget : priors[i]? with
    | none =>
      have hs : succAt priors i = false := by simp [succAt, hget]
      simp only [allStep, hget, hs]
      rw [ih st c]
      simp
    | some prior =>
      cases herr : prior.err with
      | some e =>
        have hs : succAt priors i = false := by simp [succAt, hget, herr]
        simp only [allStep, hget, herr, hs]
        rw [ih _ c]
        simp
      | none =>
        have hs : succAt priors i = true := by simp [succAt, hget, herr]
        simp only [allStep, hget, herr, hs]
        split
        · rw [ih _ (c - 1)]; push_cast; ring
        · rw [ih _ (c - 1)]; push_cast; ring

/-- While fewer successes remain scheduled than the counter holds, a batch of
All collectors leaves a completed promise state untouched: failures are
no-ops after completion and no success can drive the counter to zero. -/
lemma allAux_complete_noop (priors : List Completed) :
    ∀ (l : List Nat) (st : PromiseState) (c : Int),
      st.complete = true → (countSucc priors l : Int) < c →
      (l.foldl (allStep priors) (st, c)).1 = st := by
  intro l
  induction l with
  | nil => intro st c _ _; rfl
  | cons i l ih =>
    intro st c hc hlt
    rw [countSucc_cons] at hlt
    rw [List.foldl_cons]
    cases hget : priors[i]? with
    | none =>
      have hs : succAt priors i = false := by simp [succAt, hget]
      rw [hs] at hlt
      simp at hlt
      simp only [allStep, hget]
      exact ih st c hc (by exact_mod_cast hlt)
    | some prior =>
      cases herr : prior.err with
      | some e =>
        have hs : succAt priors i = false := by simp [succAt, hget, herr]
        rw [hs] at hlt
        simp at hlt
        simp only [allStep, hget, herr]
        have hrec : recoverCommit st
            (.errVal (GoErr.wrap "error encountered in promise" e)) = st := by
          simp [recoverCommit, hc]
        rw [hrec]
        exact ih st c hc (by exact_mod_cast hlt)
      | none =>
        have hs : succAt priors i = true := by simp [succAt, hget, herr]
        rw [hs] at hlt
        simp only [allStep, hget, herr]
        have hlt' : (countSucc priors l : Int) + 1 < c := by
          simp at hlt; exact_mod_cast hlt
        have hne : ¬ (c - 1 = 0) := by omega
        rw [if_neg hne]
        exact ih st (c - 1) hc (by omega)

/-- If a scheduled collector observes a failed predecessor, and fewer
successes are scheduled than the counter holds, the All promise ends
complete with a stored error. -/
lemma allAux_fail (priors : List Completed) :
    ∀ (l : List Nat) (st : PromiseState) (c : Int),
      st.complete = false → (countSucc priors l : Int) < c →
      (∃ i ∈ l, failAt priors i = true) →
      (l.foldl (allStep priors) (st, c)).1.complete = true ∧
      (l.foldl (allStep priors) (st, c)).1.err.isSome = true := by
  intro l
  induction l with
  | nil => intro st c _ _ hex; simp at hex
  | cons i l ih =>
    intro st c hc hlt hex
    rw [countSucc_cons] at hlt
    rw [List.foldl_cons]
    cases hfi : failAt priors i with
    | true =>
      have hs : succAt priors i = false := failAt_succAt hfi
      rw [hs] at hlt
      simp at hlt
      unfold failAt at hfi
      cases hget : priors[i]? with
      | none => rw [hget] at hfi; simp at hfi
      | some prior =>
        rw [hget] at hfi
        replace hfi : prior.err.isSome = true := hfi
        cases herr : prior.err with
        | none => rw [herr] at hfi; simp at hfi
        | some e =>
          simp only [allStep, hget, herr]
          have hst' : recoverCommit st
              (.errVal (GoErr.wrap "error encountered in promise" e)) =
              { complete := true, err := some (GoErr.wrap "error encountered in promise" e),
                results := st.results } := by
            simp [recoverCommit, hc, normalizePanic]
          rw [hst']
          rw [allAux_complete_noop priors l _ c rfl (by exact_mod_cast hlt)]
          exact ⟨rfl, rfl⟩
    | false =>
      have hex' : ∃ j ∈ l, failAt priors j = true := by
        obtain ⟨j, hj, hjf⟩ := hex
        rcases List.mem_cons.mp hj with h | h
        · subst h; rw [hfi] at hjf; simp at hjf
        · exact ⟨j, h, hjf⟩
      cases hget : priors[i]? with
      | none =>
        have hs : succAt priors i = false := by simp [succAt, hget]
        rw [hs] at hlt
        simp at hlt
        simp only [allStep, hget]
        exact ih st c hc (by exact_mod_cast hlt) hex'
      | some prior =>
        cases herr : prior.err with
        | some e =>
          exfalso
          have : failAt priors i = true := by simp [failAt, hget, herr]
          rw [hfi] at this; simp at this
        | none =>
          have hs : succAt priors i = true := by simp [succAt, hget, herr]
          rw [hs] at hlt
          simp only [if_true] at hlt
          have hlt' : (countSucc priors l : Int) + 1 < c := by push_cast at hlt; omega
          simp only [allStep, hget, herr]
          have hne : ¬ ((c - 1 : Int) = 0) := by omega
          rw [if_neg hne]
          exact ih st (c - 1) hc (by omega) hex'

/-- When every scheduled collector observes a success and exactly counter
many are scheduled, the last one commits the assembled concatenation. -/
lemma allAux_success (priors : List Completed) :
    ∀ (l : List Nat) (st : PromiseState) (c : Int),
      st.complete = false → st.err = none →
      l ≠ [] → (∀ i ∈ l, succAt priors i = true) →
      (countSucc priors l : Int) = c →
      (l.foldl (allStep priors) (st, c)).1 =
        { complete := true, err := none, results := allAssemble priors } := by
  intro l
  induction l with
  | nil => intro st c _ _ hne _ _; exact absurd rfl hne
  | cons i l ih =>
    intro st c hc he _ hall hcount
    rw [countSucc_cons] at hcount
    have hsi : succAt priors i = true := hall i (List.mem_cons_self i l)
    rw [hsi, if_pos rfl] at hcount
    rw [List.foldl_cons]
    unfold succAt at hsi
    cases hget : priors[i]? with
    | none => rw [hget] at hsi; simp at hsi
    | some prior =>
      rw [hget] at hsi
      replace hsi : prior.err.isNone = true := hsi
      cases herr : prior.err with
      | some e => rw [herr] at hsi; simp at hsi
      | none =>
        simp only [allStep, hget, herr]
        by_cases hl : l = []
        · subst hl
          have hc1 : (c - 1 : Int) = 0 := by
            have h0 : countSucc priors ([] : List Nat) = 0 := rfl
            rw [h0] at hcount
            push_cast at hcount
            omega
          rw [if_pos hc1]
          simp [runCommit, he]
        · have hcount' : (countSucc priors l : Int) = c - 1 := by push_cast at hcount; omega
          have hlen : countSucc priors l = l.length := by
            unfold countSucc
            exact List.countP_eq_length.mpr (fun a ha => hall a (List.mem_cons_of_mem i ha))
          have hne : ¬ ((c - 1 : Int) = 0) := by
            rw [← hcount', hlen]
            have : 0 < l.length := List.length_pos.mpr hl
            exact_mod_cast Nat.pos_iff_ne_zero.mp this
          rw [if_neg hne]
          exact ih st (c - 1) hc he hl
            (fun a ha => hall a (List.mem_cons_of_mem i ha)) hcount'

/-- Zipping a pointer-mapped profile with the profile pairs each pointer with
its pointee. -/
lemma zip_map_ptr : ∀ rt : List Ty, ∀ pr ∈ (rt.map Ty.ptr).zip rt, pr.1 = Ty.ptr pr.2 := by
  intro rt
  induction rt with
  | nil => simp
  | cons t ts ih => simpa using ih

/-- An output list with one pointer slot per profile entry passes Wait's
validation. -/
lemma waitValidate_matching (rt : List Ty) : waitValidate rt (rt.map Ty.ptr) = none := by
  unfold waitValidate
  by_cases h : (validSliceReturn rt (rt.map Ty.ptr)).isSome
  · rw [if_pos h]
  · rw [if_neg h, if_neg (by simp), if_pos (zip_map_ptr rt)]

/-- On a completed promise with a stored error, a validated Wait returns the
error wrapped with the panic message. -/
lemma goWait_errored (resultType outs : List Ty) (st : PromiseState) (e : GoErr)
    (hv : waitValidate resultType outs = none)
    (hc : st.complete = true) (he : st.err = some e) :
    goWait resultType st outs =
      .errored (GoErr.wrap "panic() during promise execution" e) := by
  simp [goWait, hv, hc, he]

/-- Characterization of validSliceReturn succeeding. -/
lemma validSliceReturn_isSome (rt outs : List Ty) :
    (validSliceReturn rt outs).isSome = true ↔
      (rt ≠ [] ∧ outs = [Ty.ptr (Ty.slice rt.headI)] ∧ ∀ t ∈ rt, t = rt.headI) := by
  match rt, outs with
  | [], _ => simp [validSliceReturn]
  | r :: rest, [] => simp [validSliceReturn]
  | r :: rest, a :: b :: more => simp [validSliceReturn]
  | r :: rest, [arg] =>
    simp only [validSliceReturn, List.headI]
    constructor
    · intro h
      split at h
      · rename_i hhom
        match arg with
        | Ty.ptr (Ty.slice e) =>
          simp only at h
          split at h
          · rename_i he
            subst he
            refine ⟨by simp, rfl, ?_⟩
            intro t ht
            rcases List.mem_cons.mp ht with h1 | h1
            · exact h1
            · exact hhom t h1
          · simp at h
        | Ty.ptr (Ty.named p n) => simp at h
        | Ty.ptr (Ty.ptr x) => simp at h
        | Ty.named p n => simp at h
        | Ty.slice x => simp at h
      · simp at h
    · rintro ⟨-, harg, hhom⟩
      have hr : ∀ x ∈ rest, x = r := fun x hx => hhom x (List.mem_cons_of_mem r hx)
      rw [if_pos hr]
      have harg' : arg = Ty.ptr (Ty.slice r) := by
        injection harg with h1 _
      subst harg'
      simp

/-- The boolean collect-into-sequence pattern coincides with
validSliceReturn succeeding. -/
lemma collectPattern_eq_isSome (rt outs : List Ty) :
    collectPattern rt outs = (validSliceReturn rt outs).isSome := by
  apply Bool.coe_iff_coe.mp
  rw [validSliceReturn_isSome]
  unfold collectPattern
  constructor
  · intro h
    simp only [Bool.and_eq_true, Bool.not_eq_true', List.all_eq_true,
      decide_eq_true_iff] at h
    obtain ⟨⟨h1, h2⟩, h3⟩ := h
    refine ⟨?_, h2, h3⟩
    intro he
    rw [he] at h1
    simp at h1
  · rintro ⟨h1, h2, h3⟩
    simp only [Bool.and_eq_true, Bool.not_eq_true', List.all_eq_true, decide_eq_true_iff]
    exact ⟨⟨List.isEmpty_eq_false.mpr h1, h2⟩, h3⟩

/-- C1: evidence against the claim that a Then worker whose predecessor
completed with an error panics with that error wrapped as "error in previous
promise" and does not invoke g.  thenCall tests the child's own err field,
which is still nil, so with a zero-arity g the worker invokes g and the Then
promise completes successfully with g's results, despite the failed
predecessor. -/
theorem then_ignores_prior_error_and_invokes_g :
    runThen priorPanicked constFive =
      { complete := true, err := none, results := [.intV 5] } := rfl

/-- C2: evidence against the claim that after the complete flag is set the
stored results never change.  For Any, run does not test anyCall's result
slice for nil: after the first collector commits the winner's results and
broadcasts completion, a second successful collector (whose decrement yields
-1, so anyCall returned nil) commits again and overwrites the results with
the empty list. -/
theorem any_collector_overwrites_results_after_completion :
    (runAny [anyP1, anyP2] [0]).complete = true ∧
    (runAny [anyP1, anyP2] [0]).results = [.intV 1] ∧
    runAny [anyP1, anyP2] [0, 1] = { complete := true, err := none, results := [] } :=
  ⟨rfl, rfl, rfl⟩

/-- C3: evidence against the claim that the result profile of Any over
homogeneous predecessors of arity k has length k.  Any reuses All's
profile-concatenation loop, so two int-arity-1 predecessors give the profile
[int, int] of length 2, and a Wait into one int slot raises the structural
arity panic instead of extracting the winner's result. -/
theorem any_result_profile_is_concatenation :
    anyConstruct [anyP1, anyP2] = .ok [Ty.int, Ty.int] ∧
    goWait [Ty.int, Ty.int] { complete := true, err := none, results := [.intV 1] }
        [Ty.ptr Ty.int]
      = .panicked "Promise returns %d values, Wait was asked to set %d values" :=
  ⟨rfl, rfl⟩

/-- C4: evidence against the claim that Then accepts a variadic callee for
every number m - j >= 0 of repetitions of the variadic element type.  The
adjustment switch handles argDiff = -1 (empty expansion) and argDiff > 0
(two or more repetitions) but not argDiff = 0, so exactly one repetition -
here a predecessor profile [int] against func(vals ...int) int - leaves the
slice-typed parameter in place and the element-wise check rejects the
composition. -/
theorem then_variadic_one_repetition_rejected :
    exceptOk (thenConstruct [] variadicIntFn) = true ∧
    exceptOk (thenConstruct [Ty.int, Ty.int] variadicIntFn) = true ∧
    exceptOk (thenConstruct [Ty.int] variadicIntFn) = false :=
  ⟨rfl, rfl, rfl⟩

/-- C5: when every predecessor of All succeeds, the All promise completes
successfully, its results are the concatenation of the predecessors' results
in predecessor-index order - for every completion order of the collector
workers - and its result profile is the concatenation of the predecessors'
profiles in the same order. -/
theorem all_success_concatenates (priors : List Completed) (order : List Nat)
    (hn : 0 < priors.length)
    (horder : order.Perm (List.range priors.length))
    (hsucc : ∀ p ∈ priors, p.err = none) :
    runAll priors order =
      { complete := true, err := none, results := (priors.map Completed.results).flatten } ∧
    allResultType priors = (priors.map Completed.resultType).flatten := by
  have hassemble : allAssemble priors = (priors.map Completed.results).flatten := by
    unfold allAssemble
    rw [foldl_append_flatten]
    simp
  constructor
  · have hall : ∀ i ∈ order, succAt priors i = true := by
      intro i hi
      have hir : i ∈ List.range priors.length := (horder.mem_iff).mp hi
      have hilt : i < priors.length := List.mem_range.mp hir
      cases hget : priors[i]? with
      | none =>
        exfalso
        have := List.getElem?_eq_none_iff.mp hget
        omega
      | some p =>
        have hmem : p ∈ priors := List.getElem?_mem hget
        simp [succAt, hget, hsucc p hmem]
    have hcount : countSucc priors order = priors.length := by
      unfold countSucc
      rw [List.countP_eq_length.mpr hall]
      rw [horder.length_eq, List.length_range]
    have hne : order ≠ [] := by
      intro h
      rw [h] at hcount
      simp [countSucc] at hcount
      omega
    unfold runAll runAllAux
    rw [allAux_success priors order initState (priors.length : Int) rfl rfl hne hall
      (by exact_mod_cast hcount)]
    rw [hassemble]
  · unfold allResultType
    rw [foldl_append_flatten]
    simp

/-- Witness for C5 at two concrete successful predecessors, with the
collectors finishing in reverse index order. -/
theorem all_success_concatenates_witness :
    runAll [cSeven, cEight] [1, 0] =
      { complete := true, err := none, results := [.intV 7, .intV 8] } ∧
    allResultType [cSeven, cEight] = [Ty.int, Ty.int] :=
  all_success_concatenates [cSeven, cEight] [1, 0] (by decide) (by decide) (by decide)

/-- C6: when some predecessor of All fails, the All promise - under every
completion order of its collectors - ends complete with a stored error,
Wait on it returns that error wrapped with "panic() during promise
execution", and once the promise completed at any point of the schedule the
remaining collectors leave its state unchanged. -/
theorem all_failure_completes_with_error (priors : List Completed)
    (order l1 l2 : List Nat)
    (horder : order.Perm (List.range priors.length))
    (hfail : ∃ j ∈ List.range priors.length, failAt priors j = true)
    (hsplit : order = l1 ++ l2) :
    (runAll priors order).complete = true ∧
    (runAll priors order).err.isSome = true ∧
    goWait (allResultType priors) (runAll priors order) ((allResultType priors).map Ty.ptr)
      = .errored (GoErr.wrap "panic() during promise execution"
          ((runAll priors order).err.getD (GoErr.base ""))) ∧
    ((runAllAux priors l1).1.complete = true →
      runAll priors order = (runAllAux priors l1).1) := by
  obtain ⟨j, hjr, hjf⟩ := hfail
  have hcountlt : countSucc priors order < priors.length := by
    unfold countSucc
    rw [horder.countP_eq]
    have hle : (List.range priors.length).countP (succAt priors) ≤
        (List.range priors.length).length := List.countP_le_length _
    rw [List.length_range] at hle
    rcases Nat.lt_or_ge ((List.range priors.length).countP (succAt priors))
        priors.length with h | h
    · exact h
    · exfalso
      have heq : (List.range priors.length).countP (succAt priors) =
          (List.range priors.length).length := by
        rw [List.length_range]; omega
      have hallsucc := List.countP_eq_length.mp heq
      have := hallsucc j hjr
      rw [failAt_succAt hjf] at this
      simp at this
  have hjo : j ∈ order := (horder.mem_iff).mpr hjr
  have hmain := allAux_fail priors order initState (priors.length : Int) rfl
    (by exact_mod_cast hcountlt) ⟨j, hjo, hjf⟩
  refine ⟨hmain.1, hmain.2, ?_, ?_⟩
  · obtain ⟨e, he⟩ := Option.isSome_iff_exists.mp hmain.2
    have he' : (runAll priors order).err = some e := he
    have hgd : (runAll priors order).err.getD (GoErr.base "") = e := by
      rw [he']
      rfl
    rw [hgd]
    exact goWait_errored _ _ _ e (waitValidate_matching _) hmain.1 he'
  · intro hc1
    unfold runAll runAllAux
    rw [hsplit, List.foldl_append]
    have hcounter : (l1.foldl (allStep priors) (initState, (priors.length : Int))).2 =
        (priors.length : Int) - countSucc priors l1 := allAux_counter priors l1 _ _
    have hsum : countSucc priors l1 + countSucc priors l2 = countSucc priors order := by
      rw [hsplit]
      unfold countSucc
      rw [List.countP_append]
    have hlt2 : (countSucc priors l2 : Int) <
        (l1.foldl (allStep priors) (initState, (priors.length : Int))).2 := by
      rw [hcounter]
      have : countSucc priors l1 + countSucc priors l2 < priors.length := by omega
      omega
    have := allAux_complete_noop priors l2
      (l1.foldl (allStep priors) (initState, (priors.length : Int))).1
      (l1.foldl (allStep priors) (initState, (priors.length : Int))).2
      (by unfold runAllAux at hc1; exact hc1) hlt2
    exact this

/-- Witness for C6: one successful and one failed predecessor, the failing
collector finishing first; after its commit the successful collector leaves
the state unchanged. -/
theorem all_failure_completes_with_error_witness :
    (runAll [cSeven, cFail] [1, 0]).complete = true ∧
    (runAll [cSeven, cFail] [1, 0]).err.isSome = true ∧
    goWait (allResultType [cSeven, cFail]) (runAll [cSeven, cFail] [1, 0])
        ((allResultType [cSeven, cFail]).map Ty.ptr)
      = .errored (GoErr.wrap "panic() during promise execution"
          ((runAll [cSeven, cFail] [1, 0]).err.getD (GoErr.base ""))) ∧
    runAll [cSeven, cFail] [1, 0] = (runAllAux [cSeven, cFail] [1]).1 := by
  have h := all_failure_completes_with_error [cSeven, cFail] [1, 0] [1] [0]
    (by decide) (by decide) rfl
  exact ⟨h.1, h.2.1, h.2.2.1, h.2.2.2 (by decide)⟩

/-- C7: a worker body that raises a panic never lets it escape: the panic is
caught, normalized to an error (non-error payloads stringified), stored as
the promise's error with the promise complete, and Wait returns it as an
ordinary error wrapped with "panic() during promise execution". -/
theorem worker_panic_becomes_wait_error (f : GoFunc) (args : List Val) (r : PanicVal)
    (h : callFunc f args = .panic r) :
    runSimple f args =
      { complete := true, err := some (normalizePanic r), results := [] } ∧
    goWait (getResultType f.outs).1 (runSimple f args)
        (((getResultType f.outs).1).map Ty.ptr)
      = .errored (GoErr.wrap "panic() during promise execution" (normalizePanic r)) := by
  have h1 : runSimple f args =
      { complete := true, err := some (normalizePanic r), results := [] } := by
    unfold runSimple
    rw [h]
    rfl
  refine ⟨h1, ?_⟩
  rw [h1]
  exact goWait_errored _ _ _ _ (waitValidate_matching _) rfl rfl

/-- Witness for C7 at a concrete function that panics with the string
payload "Failed!". -/
theorem worker_panic_becomes_wait_error_witness :
    runSimple panicker [] =
      { complete := true, err := some (GoErr.base "Failed!"), results := [] } ∧
    goWait [] (runSimple panicker []) []
      = .errored (GoErr.wrap "panic() during promise execution" (GoErr.base "Failed!")) :=
  worker_panic_becomes_wait_error panicker [] (.other "Failed!") rfl

/-- C8: a Wait whose output-slot count differs from the result profile
length raises the structural panic exactly unless the collect-into-sequence
pattern applies: one single output that is a pointer to a slice of the
uniform element type of a non-empty, all-identical result profile. -/
theorem wait_arity_mismatch_structural (rt outs : List Ty)
    (h : outs.length ≠ rt.length) :
    (waitValidate rt outs).isSome = !(collectPattern rt outs) := by
  rw [collectPattern_eq_isSome]
  unfold waitValidate
  by_cases hs : (validSliceReturn rt outs).isSome
  · rw [if_pos hs, hs]
    rfl
  · rw [if_neg hs]
    rw [if_pos (fun heq => h heq.symm)]
    simp only [Bool.not_eq_true] at hs
    rw [hs]
    rfl

/-- Witness for C8: a two-int profile waited into a single pointer-to-slice
slot matches the collect pattern, so the mismatched count does not panic. -/
theorem wait_arity_mismatch_structural_witness :
    (waitValidate [Ty.int, Ty.int] [Ty.ptr (Ty.slice Ty.int)]).isSome
      = !(collectPattern [Ty.int, Ty.int] [Ty.ptr (Ty.slice Ty.int)]) :=
  wait_arity_mismatch_structural [Ty.int, Ty.int] [Ty.ptr (Ty.slice Ty.int)] (by decide)

/-- C9 counterexample: with returnsError set and a non-absent trailing
error, the commit stores the error but does NOT clear the results: the
remaining popped values are stored, here [5]. -/
theorem returned_error_clears_results_counterexample :
    runCommit true initState [.intV 5, .goerr (some (GoErr.base "e"))] =
      { complete := true, err := some (GoErr.base "e"), results := [.intV 5] } ∧
    [Val.intV 5] ≠ ([] : List Val) :=
  ⟨rfl, by simp⟩

/-- C9 amended: with returnsError set the worker pops the trailing return
value; when it is a non-absent error it is stored as the promise's error,
otherwise it is discarded; in BOTH cases the remaining values become the
stored results (they are not cleared). -/
theorem returned_error_keeps_remaining_results (st : PromiseState) (rs : List Val)
    (e : Option GoErr) :
    runCommit true st (rs ++ [Val.goerr e]) =
      { complete := true
        err := match e with | some x => some x | none => st.err
        results := rs } := by
  unfold runCommit
  rw [if_pos rfl]
  rw [List.getLast?_concat, List.dropLast_concat]

/-- C10: Wait validates the output slots before blocking on completion and
before consulting the stored error: on a structural mismatch it panics for
EVERY promise state, including an incomplete promise (it does not block) and
a promise completed with an error (the stored error is not returned). -/
theorem wait_validation_precedes_blocking (rt outs : List Ty) (st : PromiseState)
    (m : String) (h : waitValidate rt outs = some m) :
    goWait rt st outs = .panicked m := by
  simp [goWait, h]

/-- Witness for C10: a mismatched Wait panics on a never-completing promise
and on a promise that completed with an error alike. -/
theorem wait_validation_precedes_blocking_witness :
    goWait [Ty.int] initState []
      = .panicked "Promise returns %d values, Wait was asked to set %d values" ∧
    goWait [Ty.int] { complete := true, err := some (GoErr.base "x"), results := [.intV 1] } []
      = .panicked "Promise returns %d values, Wait was asked to set %d values" :=
  ⟨wait_validation_precedes_blocking [Ty.int] [] initState _ rfl,
   wait_validation_precedes_blocking [Ty.int] []
     { complete := true, err := some (GoErr.base "x"), results := [.intV 1] } _ rfl⟩
